import Mathlib

/-!
# Verification of tagsonomy client-side behavior binders

A shallow embedding of `src/tagso/static/common.js` (both the id-based
helpers and the data-attribute-driven binder IIFE).  DOM state relevant to
each behavior is made explicit (select option lists, disabled flags, list
items with their searchable descendants); event handlers become pure
functions from that state, or traces of the observable actions they perform
(resets, HTTP requests, alerts), so that ordering properties can be stated.
-/

namespace Tagso

/-! ## Definitions -/

/-! ### JavaScript string primitives

`encodeURIComponent` per ECMA-262: characters in `uriAlpha ∪ uriDigit ∪
uriMark` (`- _ . ! ~ * ' ( )`) pass through; every other character has each
byte of its UTF-8 encoding written as `%XX` with uppercase hex digits. -/

/-- The `uriUnescaped` set of ECMA-262 `encodeURIComponent`:
ASCII letters, digits and the marks `- _ . ! ~ * ' ( )`. -/
def uriUnescaped (c : Char) : Bool :=
  c.isAlpha || c.isDigit || decide (c ∈ ['-', '_', '.', '!', '~', '*', '\'', '(', ')'])

/-- Uppercase hexadecimal digit for `n` (ECMA-262 writes `%XX` uppercase). -/
def hexDigit (n : Nat) : Char :=
  if n = 0 then '0' else if n = 1 then '1' else if n = 2 then '2'
  else if n = 3 then '3' else if n = 4 then '4' else if n = 5 then '5'
  else if n = 6 then '6' else if n = 7 then '7' else if n = 8 then '8'
  else if n = 9 then '9' else if n = 10 then 'A' else if n = 11 then 'B'
  else if n = 12 then 'C' else if n = 13 then 'D' else if n = 14 then 'E'
  else if n = 15 then 'F' else '0'

/-- UTF-8 encoding of a code point, as byte values. -/
def utf8Bytes (c : Char) : List Nat :=
  let n := c.toNat
  if n < 0x80 then [n]
  else if n < 0x800 then
    [0xC0 + n / 64, 0x80 + n % 64]
  else if n < 0x10000 then
    [0xE0 + n / 4096, 0x80 + n / 64 % 64, 0x80 + n % 64]
  else
    [0xF0 + n / 262144, 0x80 + n / 4096 % 64, 0x80 + n / 64 % 64, 0x80 + n % 64]

/-- `%XX` for each byte of a byte list. -/
def percentEscapeBytes : List Nat → List Char
  | [] => []
  | b :: bs => '%' :: hexDigit (b / 16 % 16) :: hexDigit (b % 16) :: percentEscapeBytes bs

/-- Percent-escape one character: `%XX` per UTF-8 byte. -/
def percentEscape (c : Char) : List Char :=
  percentEscapeBytes (utf8Bytes c)

/-- Character-by-character body of `encodeURIComponent`. -/
def encodeChars : List Char → List Char
  | [] => []
  | c :: cs => (if uriUnescaped c then [c] else percentEscape c) ++ encodeChars cs

/-- JavaScript `encodeURIComponent`. -/
def encodeURIComponent (s : String) : String :=
  ⟨encodeChars s.data⟩

/-- RFC 3986 reserved characters: gen-delims `: / ? # [ ] @` and
sub-delims `! $ & ' ( ) * + , ; =`. -/
def isReservedURIChar (c : Char) : Bool :=
  decide (c ∈ [':', '/', '?', '#', '[', ']', '@',
               '!', '$', '&', '\'', '(', ')', '*', '+', ',', ';', '='])

/-- The characters a `%XX` escape can consist of. -/
def hexCharList : List Char :=
  ['0', '1', '2', '3', '4', '5', '6', '7', '8', '9', 'A', 'B', 'C', 'D', 'E', 'F']

/-! ### URI composer (`initUriGeneration` / `updateUri`)

```js
const updateUri = () => {
    const parts = sourceIds
        .map(id => document.getElementById(id)?.value)
        .filter(Boolean);
    if (parts.length === sourceIds.length && parts.every(Boolean)) {
        uriInput.value = userNs + encodeURIComponent(parts.join(separator));
    }
};
```

A source field is `Option String`: `none` when `getElementById` returns
null, `some v` for an element whose current value is `v`. -/

/-- JavaScript `.filter(Boolean)` over the mapped source values: drops
`undefined` (missing elements) and empty strings. -/
def jsFilterBoolean (vals : List (Option String)) : List String :=
  vals.filterMap (fun v =>
    match v with
    | none => none
    | some s => if s = "" then none else some s)

/-- The `updateUri` handler: given namespace, separator, the source-field
states (in `data-uri-from` order) and the target field's previous value,
return the target field's value after the handler runs. -/
def updateUri (userNs sep : String) (vals : List (Option String)) (prev : String) : String :=
  let parts := jsFilterBoolean vals
  if parts.length == vals.length && parts.all (fun s => s != "") then
    userNs ++ encodeURIComponent (String.intercalate sep parts)
  else prev

/-- All configured source fields exist and are non-empty. -/
def allFilled (vals : List (Option String)) : Bool :=
  vals.all (fun v => v.getD "" != "")

/-! ### Event listeners: cascade change vs URI recomputation

`initUriGeneration` attaches `updateUri` with
`el.addEventListener('input', updateUri)` for each existing source element.
`initCascadeSelects`' change handler runs
`document.querySelectorAll('[data-uri-from]').forEach(el =>
el.dispatchEvent(new Event('recalculate')))`. -/

/-- One event-listener registration: the element it is attached to and the
event type it listens for. -/
structure Listener where
  targetId : String
  eventType : String
deriving DecidableEq

/-- The registrations `initUriGeneration` makes for one `[data-uri-from]`
binding: the recompute handler is registered for the `input` event on each
configured source element that exists (`ex`). -/
def uriGenListeners (sourceIds : List String) (ex : String → Bool) : List Listener :=
  (sourceIds.filter ex).map (fun id => { targetId := id, eventType := "input" })

/-- `dispatchEvent` semantics restricted to these listeners: a listener runs
iff it is attached to the dispatch target and registered for the dispatched
event type. -/
def dispatchFires (ls : List Listener) (targetId eventType : String) : Bool :=
  ls.any (fun l => l.targetId == targetId && l.eventType == eventType)

/-! ### Delete action binder (`initDeleteButtons`)

```js
const url = btn.dataset.url;
const itemType = btn.dataset.type || 'item';
if (!confirm(`Are you sure you want to delete this ${itemType}?`)) return;
const body = {};
for (const [key, value] of Object.entries(btn.dataset)) {
    if (!['url', 'type', 'delete'].includes(key)) { body[key] = value; }
}
fetch(url, { method: 'DELETE', ..., body: JSON.stringify(body) })
.then(r => r.ok ? location.reload() : Promise.reject())
.catch(() => alert(`Error deleting ${itemType}`));
```
The control's `dataset` is an association list of its `data-*` entries. -/

/-- Observable actions of the delete click handler. -/
inductive DAction where
  | confirmPrompt (msg : String)
  | httpDelete (url : Option String) (body : List (String × String))
  | reload
  | alertError (msg : String)
deriving DecidableEq

/-- The keys excluded from the request body. -/
def reservedDataKeys : List String := ["url", "type", "delete"]

/-- Request body: every dataset entry whose key is not `url`/`type`/`delete`. -/
def deleteBody (dataset : List (String × String)) : List (String × String) :=
  dataset.filter (fun kv => !(reservedDataKeys.contains kv.1))

/-- `btn.dataset.type || 'item'`. -/
def itemTypeOf (dataset : List (String × String)) : String :=
  match dataset.lookup "type" with
  | none => "item"
  | some t => if t = "" then "item" else t

def confirmMsg (dataset : List (String × String)) : String :=
  "Are you sure you want to delete this " ++ itemTypeOf dataset ++ "?"

/-- Predicate picking out network requests in a delete trace. -/
def isHttpDeleteAction : DAction → Bool
  | DAction.httpDelete _ _ => true
  | _ => false

/-- Trace of one click on a `[data-delete]` control. `confirmed` is the
user's answer to the dialog; `resp` is the fetch outcome (`some true` = 2xx,
`some false` = non-2xx, `none` = network error). -/
def deleteClickTrace (confirmed : Bool) (dataset : List (String × String))
    (resp : Option Bool) : List DAction :=
  DAction.confirmPrompt (confirmMsg dataset) ::
    (if confirmed then
      DAction.httpDelete (dataset.lookup "url") (deleteBody dataset) ::
        (match resp with
         | some true => [DAction.reload]
         | some false => [DAction.alertError ("Error deleting " ++ itemTypeOf dataset)]
         | none => [DAction.alertError ("Error deleting " ++ itemTypeOf dataset)])
    else [])

/-! ### Cascade select binder (`initCascadeSelects`)

```js
select.addEventListener('change', async () => {
    const resets = (select.dataset.resets || '').split(',').filter(Boolean);
    const targetSelect = enables ? document.getElementById(enables) : null;
    resets.forEach(id => {
        const el = document.getElementById(id);
        if (el) {
            el.innerHTML = `<option value="">Select ${id}...</option>`;
            el.disabled = true;
        }
    });
    document.querySelectorAll('[data-uri-from]').forEach(el =>
        el.dispatchEvent(new Event('recalculate')));
    if (!select.value || !targetSelect) return;
    const url = pathParts.join('/');
    targetSelect.innerHTML = '<option value="">Loading...</option>';
    try {
        const items = await fetch(url).then(r => r.json());
        targetSelect.innerHTML = `<option value="">Select ${enables}...</option>` + ...;
        targetSelect.disabled = false;
    } catch {
        targetSelect.innerHTML = '<option value="">Error loading</option>';
    }
});
```
-/

/-- Outcome of the cascade fetch: `ok items` when `fetch(url).then(r =>
r.json())` resolves to an item list, `err` when it rejects (network error or
non-JSON response). -/
inductive FetchResult where
  | ok (items : List String)
  | err
deriving DecidableEq

/-- The state of one `<select>`: its option list (value, label) and its
`disabled` flag. -/
structure SelectState where
  options : List (String × String)
  disabled : Bool
deriving DecidableEq

/-- Observable actions of the cascade change handler, in program order. -/
inductive CAction where
  | reset (id : String)
  | dispatchRecalc
  | setLoading (id : String)
  | httpGet (url : String)
  | populate (id : String) (items : List String)
  | enable (id : String)
  | setError (id : String)
deriving DecidableEq

/-- JavaScript `split(',')` over the characters, accumulating the current
segment in reverse. -/
def splitCommaAux : List Char → List Char → List String
  | [], cur => [String.mk cur.reverse]
  | c :: cs, cur =>
    if c = ',' then String.mk cur.reverse :: splitCommaAux cs []
    else splitCommaAux cs (c :: cur)

/-- `(select.dataset.resets || '').split(',').filter(Boolean)`. -/
def parseResets (attr : String) : List String :=
  (splitCommaAux attr.data []).filter (fun s => s != "")

/-- The part of the trace after the dependent resets: the `recalculate`
dispatch, then — if the select has a value and a target to populate — the
loading placeholder, the request and its outcome. -/
def cascadeTraceTail (v : String) (target : Option String) (url : String)
    (res : FetchResult) : List CAction :=
  CAction.dispatchRecalc ::
    (match target with
     | none => []
     | some t =>
       if v = "" then []
       else
         CAction.setLoading t :: CAction.httpGet url ::
           (match res with
            | FetchResult.ok items => [CAction.populate t items, CAction.enable t]
            | FetchResult.err => [CAction.setError t]))

/-- Trace of one change event on a `[data-cascade]` select. `v` is the
select's new value, `resetsAttr` its `data-resets` attribute, `ex` which
element ids exist in the document, `target` the `data-enables` element (if
declared and existing), `url` the request URL built from the templated path,
`res` the fetch outcome. -/
def cascadeTrace (v resetsAttr : String) (ex : String → Bool)
    (target : Option String) (url : String) (res : FetchResult) : List CAction :=
  ((parseResets resetsAttr).filter ex).map CAction.reset ++
    cascadeTraceTail v target url res

/-- `el.innerHTML = `<option value="">Select ${id}...</option>`; el.disabled
= true` — the state a reset leaves a dependent select in. -/
def resetState (id : String) : SelectState :=
  { options := [("", "Select " ++ id ++ "...")], disabled := true }

/-- Effect of one cascade action on the document's select states. -/
def applyCAction (dom : String → SelectState) : CAction → (String → SelectState)
  | CAction.reset id => fun i => if i = id then resetState id else dom i
  | CAction.dispatchRecalc => dom
  | CAction.setLoading id => fun i =>
      if i = id then { dom id with options := [("", "Loading...")] } else dom i
  | CAction.httpGet _ => dom
  | CAction.populate id items => fun i =>
      if i = id then
        { dom id with
          options := ("", "Select " ++ id ++ "...") :: items.map (fun x => (x, x)) }
      else dom i
  | CAction.enable id => fun i => if i = id then { dom id with disabled := false } else dom i
  | CAction.setError id => fun i =>
      if i = id then { dom id with options := [("", "Error loading")] } else dom i

/-- Run a cascade trace against the document's select states. -/
def runCascade (dom : String → SelectState) (tr : List CAction) : String → SelectState :=
  tr.foldl applyCAction dom

/-! ### List filter binder (`initFiltering`)

```js
const filter = () => {
    const query = input.value.toUpperCase();
    Array.from(list.children).forEach(item => {
        const searchable = item.querySelector('[data-searchable]')
            ? Array.from(item.querySelectorAll('[data-searchable]'))
            : Array.from(item.querySelectorAll('span'));
        const text = searchable.map(el => el.textContent).join(' ').toUpperCase();
        item.hidden = !text.includes(query);
    });
};
```
-/

/-- One child of the filtered container: the text contents of its
`[data-searchable]` descendants, of its `span` descendants, and its current
`hidden` flag. -/
structure Item where
  marked : List String
  spans : List String
  hidden : Bool
deriving DecidableEq, Inhabited

/-- The text the filter matches against: explicitly marked descendants if
any exist, otherwise all span descendants, joined with a space. -/
def searchableText (it : Item) : String :=
  String.intercalate " " (if it.marked.isEmpty then it.spans else it.marked)

/-- JavaScript `toUpperCase` restricted to the ASCII mapping. -/
def jsToUpper (s : String) : String :=
  String.mk (s.data.map Char.toUpper)

/-- `pat` starts the given character list. -/
def hasPref : List Char → List Char → Bool
  | [], _ => true
  | _ :: _, [] => false
  | a :: as, b :: bs => a == b && hasPref as bs

/-- `pat` occurs somewhere in the character list (JavaScript `includes`). -/
def occursIn (pat : List Char) : List Char → Bool
  | [] => hasPref pat []
  | b :: bs => hasPref pat (b :: bs) || occursIn pat bs

/-- JavaScript `s.includes(pat)`. -/
def strIncludes (s pat : String) : Bool :=
  occursIn pat.data s.data

/-- The `input` handler: recompute every child's `hidden` flag from the
current query (`item.hidden = !text.includes(query)`), touching nothing
else. -/
def applyFilter (query : String) (items : List Item) : List Item :=
  items.map (fun it =>
    { it with
      hidden := !(strIncludes (jsToUpper (searchableText it)) (jsToUpper query)) })

/-! ### Repeatable alt-label rows (`initAltLabels`)

```js
function createAltLabelField() {
    const div = document.createElement('div');
    div.className = 'alt-label-field';
    div.innerHTML = `
        <input type="text" name="alt_labels" placeholder="Alternative label" required>
        <button type="button" data-remove-field>Remove</button>`;
    return div;
}
// add:    container.appendChild(createAltLabelField());
// remove: removeBtn.closest('.alt-label-field')?.remove();
```
-/

/-- One alt-label row: its input's type, name, `required` flag, and whether
it carries a remove control. -/
structure AltLabelRow where
  inputType : String
  inputName : String
  required : Bool
  hasRemoveButton : Bool
deriving DecidableEq

/-- The row `createAltLabelField` builds. -/
def newAltLabelRow : AltLabelRow :=
  { inputType := "text", inputName := "alt_labels", required := true,
    hasRemoveButton := true }

/-- One add-click appends a fresh row to the container. -/
def addClick (c : List AltLabelRow) : List AltLabelRow :=
  c ++ [newAltLabelRow]

/-- `n` add-clicks in sequence. -/
def addClicks (c : List AltLabelRow) : Nat → List AltLabelRow
  | 0 => c
  | n + 1 => addClicks (addClick c) n

/-- One remove-click on row `i`'s remove control removes that row's own
enclosing element. -/
def removeClick (c : List AltLabelRow) (i : Nat) : List AltLabelRow :=
  c.eraseIdx i

/-- A sequence of remove-clicks, each naming the index of the row whose
remove control is clicked. -/
def removeClicks (c : List AltLabelRow) : List Nat → List AltLabelRow
  | [] => c
  | i :: rest => removeClicks (removeClick c i) rest

/-- Each remove-click targets a row that exists at that moment (a click on a
remove control can only happen on a row present in the document). -/
def validRemovals (c : List AltLabelRow) : List Nat → Bool
  | [] => true
  | i :: rest => decide (i < c.length) && validRemovals (removeClick c i) rest

/-! ## Theorems -/

example : updateUri "http://example.org/" "." [some "main", some "orders"] "old" =
    "http://example.org/main.orders" := by decide

example : updateUri "http://example.org/" "." [some "main", some ""] "old" = "old" := by
  decide

example : updateUri "ns:" "." [some "a", none] "old" = "old" := by decide

example : encodeURIComponent "a!b.c" = "a!b.c" := by decide

example : encodeURIComponent "a/b" = "a%2Fb" := by decide

/-! ### Lemmas about the composer's filter step -/

theorem jsFilterBoolean_length_le (vals : List (Option String)) :
    (jsFilterBoolean vals).length ≤ vals.length :=
  List.length_filterMap_le _ _

theorem jsFilterBoolean_of_allFilled (vals : List (Option String))
    (h : allFilled vals = true) :
    jsFilterBoolean vals = vals.map (fun v => v.getD "") := by
  induction vals with
  | nil => rfl
  | cons v vs ih =>
    simp only [allFilled, List.all_cons, Bool.and_eq_true] at h
    obtain ⟨h1, h2⟩ := h
    cases v with
    | none => simp at h1
    | some s =>
      have hs : ¬ s = "" := by simpa using h1
      have ih' := ih h2
      simp only [jsFilterBoolean] at ih' ⊢
      simp only [List.filterMap_cons, if_neg hs, List.map_cons, Option.getD_some]
      exact congrArg (List.cons s) ih'

theorem jsFilterBoolean_length_lt (vals : List (Option String))
    (h : allFilled vals = false) :
    (jsFilterBoolean vals).length < vals.length := by
  induction vals with
  | nil => simp [allFilled] at h
  | cons v vs ih =>
    simp only [allFilled, List.all_cons, Bool.and_eq_false_iff] at h
    cases v with
    | none =>
      simp only [jsFilterBoolean, List.filterMap_cons, List.length_cons]
      exact Nat.lt_succ_of_le (jsFilterBoolean_length_le vs)
    | some s =>
      rcases h with h1 | h2
      · have hs : s = "" := by simpa using h1
        simp only [jsFilterBoolean, List.filterMap_cons, hs, if_pos rfl, List.length_cons]
        exact Nat.lt_succ_of_le (jsFilterBoolean_length_le vs)
      · by_cases hs : s = ""
        · simp only [jsFilterBoolean, List.filterMap_cons, hs, if_pos rfl, List.length_cons]
          exact Nat.lt_succ_of_le (jsFilterBoolean_length_le vs)
        · simp only [jsFilterBoolean, List.filterMap_cons, if_neg hs, List.length_cons]
          exact Nat.succ_lt_succ (ih h2)

theorem jsFilterBoolean_mem_ne (vals : List (Option String)) :
    ∀ s ∈ jsFilterBoolean vals, s ≠ "" := by
  intro s hs
  simp only [jsFilterBoolean, List.mem_filterMap] at hs
  obtain ⟨v, _, he⟩ := hs
  cases v with
  | none => simp at he
  | some t =>
    by_cases ht : t = ""
    · simp [ht] at he
    · simp only [if_neg ht, Option.some.injEq] at he
      exact he ▸ ht

/-- Helper shared by the composer claims: the handler, fully characterised. -/
theorem updateUri_eq (ns sep : String) (vals : List (Option String)) (prev : String) :
    updateUri ns sep vals prev =
      if allFilled vals then
        ns ++ encodeURIComponent (String.intercalate sep (vals.map (fun v => v.getD "")))
      else prev := by
  unfold updateUri
  cases hf : allFilled vals with
  | true =>
    rw [jsFilterBoolean_of_allFilled vals hf]
    have hlen : ((vals.map (fun v => v.getD "")).length == vals.length) = true := by
      simp
    have hall : (vals.map (fun v => v.getD "")).all (fun s => s != "") = true := by
      rw [List.all_eq_true]
      intro s hs
      rw [List.mem_map] at hs
      obtain ⟨v, hv, rfl⟩ := hs
      have := List.all_eq_true.mp hf v hv
      simpa using this
    simp [hlen, hall]
  | false =>
    have hlt := jsFilterBoolean_length_lt vals hf
    have : ((jsFilterBoolean vals).length == vals.length) = false := by
      simp [Nat.ne_of_lt hlt]
    simp [this]

/-- C1: for a URI-composer binding (configured source fields, namespace
prefix and separator), a qualifying source-field event writes the target
field iff every configured source field is non-empty at that moment; when
written the value is the namespace prefix ++ percent-encoding of the
separator-joined source values, and otherwise the previous value is kept. -/
theorem uriComposer_writes_iff_allFilled (ns sep : String)
    (vals : List (Option String)) (prev : String) :
    updateUri ns sep vals prev =
      if allFilled vals then
        ns ++ encodeURIComponent (String.intercalate sep (vals.map (fun v => v.getD "")))
      else prev :=
  updateUri_eq ns sep vals prev

/-! ### What `encodeURIComponent` leaves unescaped -/

theorem hexDigit_mem (n : Nat) : hexDigit n ∈ hexCharList := by
  by_cases h : n < 16
  · interval_cases n <;> decide
  · unfold hexDigit
    repeat rw [if_neg (by omega)]
    decide

theorem mem_percentEscapeBytes (bs : List Nat) (c : Char)
    (h : c ∈ percentEscapeBytes bs) : c = '%' ∨ c ∈ hexCharList := by
  induction bs with
  | nil => simp [percentEscapeBytes] at h
  | cons b rest ih =>
    simp only [percentEscapeBytes, List.mem_cons] at h
    rcases h with rfl | rfl | rfl | h
    · exact Or.inl rfl
    · exact Or.inr (hexDigit_mem _)
    · exact Or.inr (hexDigit_mem _)
    · exact ih h

theorem mem_encodeChars (l : List Char) (c : Char) (h : c ∈ encodeChars l) :
    (uriUnescaped c = true ∧ c ∈ l) ∨ c = '%' ∨ c ∈ hexCharList := by
  induction l with
  | nil => simp [encodeChars] at h
  | cons d ds ih =>
    simp only [encodeChars] at h
    rcases List.mem_append.mp h with h1 | h2
    · by_cases hu : uriUnescaped d
      · rw [if_pos hu] at h1
        simp only [List.mem_singleton] at h1
        subst h1
        exact Or.inl ⟨hu, List.mem_cons_self _ _⟩
      · rw [if_neg hu] at h1
        exact Or.inr (mem_percentEscapeBytes _ c h1)
    · rcases ih h2 with ⟨hu, hm⟩ | h
      · exact Or.inl ⟨hu, List.mem_cons_of_mem _ hm⟩
      · exact Or.inr h

/-- A reserved character outside `! ' ( ) *` is escaped by
`encodeURIComponent`: it is not in the unescaped set, and no escape sequence
can produce it. -/
theorem reserved_char_props (c : Char) (hr : isReservedURIChar c = true)
    (hn : c ∉ ['!', '\'', '(', ')', '*']) :
    uriUnescaped c = false ∧ c ≠ '%' ∧ c ∉ hexCharList := by
  unfold isReservedURIChar at hr
  have hmem := of_decide_eq_true hr
  fin_cases hmem <;> first
    | exact absurd (by decide) hn
    | decide

/-- Core of C2: a reserved character outside the five unescaped sub-delims
never occurs literally in the output of `encodeURIComponent`. -/
theorem reserved_not_in_encode (s : String) (c : Char)
    (hr : isReservedURIChar c = true) (hn : c ∉ ['!', '\'', '(', ')', '*']) :
    c ∉ (encodeURIComponent s).data := by
  intro hmem
  rcases mem_encodeChars s.data c hmem with ⟨hu, _⟩ | h | h
  · rw [(reserved_char_props c hr hn).1] at hu
    exact Bool.false_ne_true hu
  · exact (reserved_char_props c hr hn).2.1 h
  · exact (reserved_char_props c hr hn).2.2 h

/-- C2 (amended): the encoding step applies `encodeURIComponent` to the
separator-joined string as a whole, and escapes every reserved URI character
in it except the sub-delims `! ' ( ) *` (which ECMA-262 `encodeURIComponent`
leaves unescaped); a literal `.` separator is preserved unescaped. -/
theorem encode_joined_escapes_reserved (parts : List String) (sep : String) (c : Char)
    (hr : isReservedURIChar c = true) (hn : c ∉ ['!', '\'', '(', ')', '*']) :
    c ∉ (encodeURIComponent (String.intercalate sep parts)).data ∧
      encodeURIComponent "." = "." :=
  ⟨reserved_not_in_encode _ c hr hn, by decide⟩

/-- Witness for the amended C2 at a concrete input. -/
theorem encode_joined_escapes_reserved_witness :
    isReservedURIChar ':' = true ∧ (':' ∉ (['!', '\'', '(', ')', '*'] : List Char)) ∧
      (':' ∉ (encodeURIComponent (String.intercalate "." ["a", "b:c"])).data ∧
        encodeURIComponent "." = ".") :=
  ⟨by decide, by decide,
    encode_joined_escapes_reserved ["a", "b:c"] "." ':' (by decide) (by decide)⟩

/-- C2 counterexample: `!` is a reserved URI character, occurs in the
separator-joined string `a.x!y`, and survives unescaped in the output of the
encoding step, so the encoding does not escape every reserved character. -/
theorem encode_misses_reserved_bang :
    isReservedURIChar '!' = true ∧
      '!' ∈ (String.intercalate "." ["a", "x!y"]).data ∧
      '!' ∈ (encodeURIComponent (String.intercalate "." ["a", "x!y"])).data := by
  decide

/-! ### C3: the `recalculate` dispatch matches no listener -/

/-- C3 (code bug): the cascade change handler dispatches
`new Event('recalculate')` on the `[data-uri-from]` element, but
`initUriGeneration` registers the recompute handler only for `input` events
on the source elements, so the dispatch matches no registered listener and
the URI field is never recomputed by a cascade change. -/
theorem cascade_recalculate_never_fires (uriFieldId : String)
    (sourceIds : List String) (ex : String → Bool) :
    dispatchFires (uriGenListeners sourceIds ex) uriFieldId "recalculate" = false := by
  rw [Bool.eq_false_iff]
  intro h
  simp only [dispatchFires, List.any_eq_true, uriGenListeners, List.mem_map] at h
  obtain ⟨l, ⟨id, _, rfl⟩, hl⟩ := h
  simp at hl

/-! ### Delete action binder -/

/-- C5: when the user declines the confirmation dialog, the handler's whole
trace is the prompt itself — in particular no DELETE request is issued and
no reload or alert happens. -/
theorem decline_no_network (dataset : List (String × String)) (resp : Option Bool) :
    deleteClickTrace false dataset resp =
        [DAction.confirmPrompt (confirmMsg dataset)] ∧
      ∀ u b, DAction.httpDelete u b ∉ deleteClickTrace false dataset resp := by
  refine ⟨rfl, ?_⟩
  intro u b h
  simp [deleteClickTrace] at h

/-- C6: when the user confirms, the trace contains exactly one DELETE
request; it goes to the control's `data-url` with body `deleteBody dataset`,
and that body equals the control's declared key/value fields as an
order-independent mapping (same key/value pairs). -/
theorem confirm_single_delete (dataset : List (String × String)) (resp : Option Bool) :
    (deleteClickTrace true dataset resp).countP isHttpDeleteAction = 1 ∧
      DAction.httpDelete (dataset.lookup "url") (deleteBody dataset)
        ∈ deleteClickTrace true dataset resp ∧
      ∀ k v, ((k, v) ∈ deleteBody dataset ↔
        ((k, v) ∈ dataset ∧ reservedDataKeys.contains k = false)) := by
  refine ⟨?_, ?_, ?_⟩
  · rcases resp with _ | b
    · simp [deleteClickTrace, List.countP_cons, isHttpDeleteAction]
    · cases b <;>
        simp [deleteClickTrace, List.countP_cons, isHttpDeleteAction]
  · simp [deleteClickTrace]
  · intro k v
    simp [deleteBody, List.mem_filter]

/-! ### Cascade select binder -/

theorem append_eq_cons_mem_left {α : Type} (A : List α) :
    ∀ (tail l₁ l₂ : List α) (x : α), A ++ tail = l₁ ++ x :: l₂ → x ∉ A →
      ∀ a ∈ A, a ∈ l₁ := by
  induction A with
  | nil =>
    intro tail l₁ l₂ x _ _ a ha
    exact absurd ha (List.not_mem_nil a)
  | cons b A' ih =>
    intro tail l₁ l₂ x heq hx a ha
    cases l₁ with
    | nil =>
      rw [List.nil_append, List.cons_append] at heq
      injection heq with h1 _
      subst h1
      exact absurd (List.mem_cons_self _ _) hx
    | cons c l₁' =>
      rw [List.cons_append, List.cons_append] at heq
      injection heq with h1 h2
      rcases List.mem_cons.mp ha with rfl | ha'
      · rw [h1]
        exact List.mem_cons_self _ _
      · exact List.mem_cons_of_mem _
          (ih tail l₁' l₂ x h2 (fun hx' => hx (List.mem_cons_of_mem _ hx')) a ha')

/-- C8: in the trace of a cascade change, every declared dependent element
that exists is cleared and disabled strictly before any HTTP request:
wherever a `GET` occurs in the trace, the reset of every declared dependent
already occurred in the part of the trace before it. -/
theorem cascade_resets_precede_request (v resetsAttr : String) (ex : String → Bool)
    (target : Option String) (url : String) (res : FetchResult) :
    ∀ l₁ l₂ u,
      cascadeTrace v resetsAttr ex target url res = l₁ ++ CAction.httpGet u :: l₂ →
      ∀ r ∈ (parseResets resetsAttr).filter ex, CAction.reset r ∈ l₁ := by
  intro l₁ l₂ u heq r hr
  unfold cascadeTrace at heq
  have hx : CAction.httpGet u ∉
      ((parseResets resetsAttr).filter ex).map CAction.reset := by
    intro hmem
    obtain ⟨y, _, hy⟩ := List.mem_map.mp hmem
    exact CAction.noConfusion hy
  exact append_eq_cons_mem_left _ _ _ _ _ heq hx (CAction.reset r)
    (List.mem_map_of_mem _ hr)

/-- Witness for C8 at a concrete cascade configuration. -/
theorem cascade_resets_precede_request_witness :
    CAction.reset "schema" ∈
      [CAction.reset "schema", CAction.dispatchRecalc, CAction.setLoading "table"] :=
  cascade_resets_precede_request "x" "schema" (fun _ => true) (some "table") "u"
    FetchResult.err
    [CAction.reset "schema", CAction.dispatchRecalc, CAction.setLoading "table"]
    [CAction.setError "table"] "u" (by decide) "schema" (by decide)

/-- Folding the reset prefix: a dependent in the reset list ends in
`resetState`; any other element keeps its state. -/
theorem foldl_resets (ids : List String) (dom : String → SelectState) (t : String) :
    ((ids.map CAction.reset).foldl applyCAction dom) t =
      if t ∈ ids then resetState t else dom t := by
  induction ids generalizing dom with
  | nil => simp
  | cons id rest ih =>
    simp only [List.map_cons, List.foldl_cons]
    rw [ih]
    by_cases hmem : t ∈ rest
    · simp [hmem, List.mem_cons]
    · by_cases hid : t = id
      · subst hid
        simp [hmem, applyCAction]
      · simp [hmem, hid, applyCAction, List.mem_cons]

/-- C4: when the cascade fetch fails, the target select — among the reset
dependents — ends with the inline error placeholder as its only option
(never the stale prior options) and is still disabled. -/
theorem cascade_fetch_failure_error_only (dom : String → SelectState)
    (v resetsAttr url t : String) (ex : String → Bool)
    (hv : v ≠ "") (ht : t ∈ (parseResets resetsAttr).filter ex) :
    runCascade dom (cascadeTrace v resetsAttr ex (some t) url FetchResult.err) t =
      { options := [("", "Error loading")], disabled := true } := by
  unfold runCascade cascadeTrace
  rw [List.foldl_append]
  have htail : cascadeTraceTail v (some t) url FetchResult.err =
      [CAction.dispatchRecalc, CAction.setLoading t, CAction.httpGet url,
        CAction.setError t] := by
    simp [cascadeTraceTail, hv]
  rw [htail]
  simp only [List.foldl_cons, List.foldl_nil]
  have hA := foldl_resets ((parseResets resetsAttr).filter ex) dom t
  rw [if_pos ht] at hA
  simp only [applyCAction]
  simp [hA, resetState]

/-- Witness for C4 at a concrete configuration: previously populated,
enabled target; failing fetch. -/
theorem cascade_fetch_failure_error_only_witness :
    runCascade (fun _ => { options := [("a", "a")], disabled := false })
        (cascadeTrace "x" "table,column" (fun _ => true) (some "table") "u"
          FetchResult.err) "table" =
      { options := [("", "Error loading")], disabled := true } :=
  cascade_fetch_failure_error_only
    (fun _ => { options := [("a", "a")], disabled := false })
    "x" "table,column" "u" "table" (fun _ => true) (by decide) (by decide)

/-! ### List filter binder -/

/-- C7: after an input event, the container has the same children in the
same order (same searchable descendants), and each child is hidden exactly
when its space-joined searchable text does not contain the query
case-insensitively. -/
theorem filterList_hidden_iff (q : String) (items : List Item) (i : Nat)
    (h : i < items.length) :
    (applyFilter q items).length = items.length ∧
      ((applyFilter q items).getD i default).marked = (items.getD i default).marked ∧
      ((applyFilter q items).getD i default).spans = (items.getD i default).spans ∧
      ((applyFilter q items).getD i default).hidden =
        !(strIncludes (jsToUpper (searchableText (items.getD i default)))
          (jsToUpper q)) := by
  have hlen : (applyFilter q items).length = items.length := List.length_map _ _
  have hi' : i < (applyFilter q items).length := by rw [hlen]; exact h
  refine ⟨hlen, ?_, ?_, ?_⟩ <;>
  · rw [List.getD_eq_getElem _ _ hi', List.getD_eq_getElem _ _ h]
    simp [applyFilter]

/-- Witness for C7: the spec's own example, filter `cust` against
`Revenue`. -/
theorem filterList_hidden_iff_witness :
    (applyFilter "cust" [Item.mk [] ["Revenue"] false]).length =
        ([Item.mk [] ["Revenue"] false] : List Item).length ∧
      ((applyFilter "cust" [Item.mk [] ["Revenue"] false]).getD 0 default).marked =
        (([Item.mk [] ["Revenue"] false] : List Item).getD 0 default).marked ∧
      ((applyFilter "cust" [Item.mk [] ["Revenue"] false]).getD 0 default).spans =
        (([Item.mk [] ["Revenue"] false] : List Item).getD 0 default).spans ∧
      ((applyFilter "cust" [Item.mk [] ["Revenue"] false]).getD 0 default).hidden =
        !(strIncludes
          (jsToUpper (searchableText
            (([Item.mk [] ["Revenue"] false] : List Item).getD 0 default)))
          (jsToUpper "cust")) :=
  filterList_hidden_iff "cust" [Item.mk [] ["Revenue"] false] 0 (by decide)

theorem occursIn_nil_pat (l : List Char) : occursIn [] l = true := by
  cases l <;> simp [occursIn, hasPref]

/-- C10: with the empty query the handler marks every child visible — the
empty string is a substring of every searchable text — including children a
previous non-empty filter had hidden. -/
theorem empty_filter_all_visible (items : List Item) :
    ∀ it ∈ applyFilter "" items, it.hidden = false := by
  intro it hit
  simp only [applyFilter, List.mem_map] at hit
  obtain ⟨src, _, rfl⟩ := hit
  simp [strIncludes, jsToUpper, occursIn_nil_pat]

/-- Witness for C10: a child hidden by a previous filter becomes visible. -/
theorem empty_filter_all_visible_witness :
    ((applyFilter "" [Item.mk [] ["Revenue"] true]).getD 0 default).hidden = false :=
  empty_filter_all_visible [Item.mk [] ["Revenue"] true] _ (by decide)

/-! ### Repeatable alt-label rows -/

theorem addClicks_eq (c : List AltLabelRow) (n : Nat) :
    addClicks c n = c ++ List.replicate n newAltLabelRow := by
  induction n generalizing c with
  | zero => simp [addClicks]
  | succ m ih =>
    simp only [addClicks, addClick]
    rw [ih]
    simp [List.replicate_succ]

theorem eraseIdx_replicate_row (k i : Nat) (h : i < k) :
    (List.replicate k newAltLabelRow).eraseIdx i =
      List.replicate (k - 1) newAltLabelRow := by
  have hsub : List.Sublist ((List.replicate k newAltLabelRow).eraseIdx i)
      (List.replicate k newAltLabelRow) := List.eraseIdx_sublist _ i
  rw [List.eq_replicate_iff]
  refine ⟨?_, ?_⟩
  · rw [List.length_eraseIdx]
    simp [h]
  · intro b hb
    exact List.eq_of_mem_replicate (hsub.subset hb)

theorem removeClicks_replicate (idxs : List Nat) :
    ∀ k, validRemovals (List.replicate k newAltLabelRow) idxs = true →
      removeClicks (List.replicate k newAltLabelRow) idxs =
        List.replicate (k - idxs.length) newAltLabelRow := by
  induction idxs with
  | nil =>
    intro k _
    simp [removeClicks]
  | cons i rest ih =>
    intro k hv
    simp only [validRemovals, Bool.and_eq_true, decide_eq_true_eq] at hv
    obtain ⟨hik, hrest⟩ := hv
    have hk : i < k := by simpa using hik
    simp only [removeClicks, removeClick] at hrest ⊢
    rw [eraseIdx_replicate_row k i hk] at hrest ⊢
    rw [ih (k - 1) hrest]
    congr 1
    simp only [List.length_cons]
    omega

/-- C9: N add-clicks on an empty container followed by M remove-clicks
(each on an existing row's remove control) leave exactly N−M rows, and every
remaining row is still a full alt-label row: a required text input named
`alt_labels` together with a remove control. -/
theorem altLabel_add_remove (n : Nat) (idxs : List Nat)
    (hv : validRemovals (addClicks [] n) idxs = true) :
    (removeClicks (addClicks [] n) idxs).length = n - idxs.length ∧
      ∀ r ∈ removeClicks (addClicks [] n) idxs, r = newAltLabelRow := by
  have hadd : addClicks ([] : List AltLabelRow) n =
      List.replicate n newAltLabelRow := by
    rw [addClicks_eq]
    simp
  rw [hadd] at hv ⊢
  rw [removeClicks_replicate idxs n hv]
  exact ⟨List.length_replicate _ _, fun r hr => List.eq_of_mem_replicate hr⟩

/-- Witness for C9: two adds, one remove, one row left, still complete. -/
theorem altLabel_add_remove_witness :
    (removeClicks (addClicks [] 2) [0]).length = 2 - 1 ∧
      (removeClicks (addClicks [] 2) [0]).getD 0 newAltLabelRow = newAltLabelRow :=
  ⟨(altLabel_add_remove 2 [0] (by decide)).1,
    (altLabel_add_remove 2 [0] (by decide)).2 _ (by decide)⟩

/-- Witness for C5 at a concrete delete control. -/
theorem decline_no_network_witness :
    deleteClickTrace false [("url", "/d"), ("uri", "u1")] (some true) =
        [DAction.confirmPrompt (confirmMsg [("url", "/d"), ("uri", "u1")])] ∧
      DAction.httpDelete (some "/d") (deleteBody [("url", "/d"), ("uri", "u1")]) ∉
        deleteClickTrace false [("url", "/d"), ("uri", "u1")] (some true) :=
  ⟨(decline_no_network [("url", "/d"), ("uri", "u1")] (some true)).1,
    (decline_no_network [("url", "/d"), ("uri", "u1")] (some true)).2 (some "/d")
      (deleteBody [("url", "/d"), ("uri", "u1")])⟩

/-- Witness for C6 at a concrete delete control. -/
theorem confirm_single_delete_witness :
    (deleteClickTrace true [("url", "/d"), ("uri", "u1")] (some true)).countP
        isHttpDeleteAction = 1 ∧
      DAction.httpDelete (List.lookup "url" [("url", "/d"), ("uri", "u1")])
          (deleteBody [("url", "/d"), ("uri", "u1")]) ∈
        deleteClickTrace true [("url", "/d"), ("uri", "u1")] (some true) ∧
      (("uri", "u1") ∈ deleteBody [("url", "/d"), ("uri", "u1")] ↔
        (("uri", "u1") ∈ ([("url", "/d"), ("uri", "u1")] : List (String × String)) ∧
          reservedDataKeys.contains "uri" = false)) :=
  ⟨(confirm_single_delete [("url", "/d"), ("uri", "u1")] (some true)).1,
    (confirm_single_delete [("url", "/d"), ("uri", "u1")] (some true)).2.1,
    (confirm_single_delete [("url", "/d"), ("uri", "u1")] (some true)).2.2 "uri" "u1"⟩

end Tagso
